import Mathlib

/-!
Verification of the stream-record processing utilities of
`06-kafka-spark-streaming/app/data_processor.py`: validators, enrichers and
aggregators for user events, sensor readings and transactions.

Records are Python dictionaries with string keys and scalar values.  We embed
them as association lists `Dict := List (String × Value)` where `Value` covers
the scalar values of the data model (strings, numbers, booleans).  Numbers are
embedded as rationals; Python booleans participate in arithmetic and numeric
comparison as 0/1, which `asNum` captures.  A Python operation that can raise
`TypeError` or `KeyError` (ordering a string against a number, subscripting a
missing key) is embedded in `Except Unit`; `datetime.now().isoformat()` is
passed in as an explicit `now : String` argument.
-/

set_option autoImplicit false

deriving instance DecidableEq for Except

namespace DataProcessor

/-- A scalar value of a record field: a Python `str`, a number (int or float,
embedded as a rational), or a `bool`. -/
inductive Value where
  | str : String → Value
  | num : ℚ → Value
  | bool : Bool → Value
deriving DecidableEq, Repr

/-- Numeric view of a value: Python treats `bool` as the numbers 0/1 in
arithmetic and comparisons; strings are not numbers. -/
def asNum : Value → Option ℚ
  | .num q => some q
  | .bool b => some (if b then 1 else 0)
  | .str _ => none

/-- Python `==` on scalar values: numeric equality across `int`/`float`/`bool`,
string equality on strings, and `False` across unrelated types. -/
def pyEq (a b : Value) : Bool :=
  match asNum a, asNum b with
  | some x, some y => x == y
  | _, _ =>
    match a, b with
    | .str s, .str t => s == t
    | _, _ => false

/-- Python truthiness of a scalar value (`bool(v)`). -/
def truthy : Value → Bool
  | .str s => s ≠ ""
  | .num q => q ≠ 0
  | .bool b => b

/-- Python `v <= q` for a numeric literal `q` on the right: raises `TypeError`
when `v` is not a number. -/
def pyLeNum (v : Value) (q : ℚ) : Except Unit Bool :=
  match asNum v with
  | some x => .ok (x ≤ q)
  | none => .error ()

/-- Python `q <= v` for a numeric literal `q` on the left. -/
def pyNumLe (q : ℚ) (v : Value) : Except Unit Bool :=
  match asNum v with
  | some x => .ok (q ≤ x)
  | none => .error ()

/-- Python `v > q` for a numeric literal `q`. -/
def pyGtNum (v : Value) (q : ℚ) : Except Unit Bool :=
  match asNum v with
  | some x => .ok (q < x)
  | none => .error ()

/-- Python `v < q` for a numeric literal `q`. -/
def pyLtNum (v : Value) (q : ℚ) : Except Unit Bool :=
  match asNum v with
  | some x => .ok (x < q)
  | none => .error ()

/-- Python `a < b` between two scalar values: numeric order on numbers and
booleans, lexicographic order on strings, `TypeError` otherwise. -/
def pyLtV (a b : Value) : Except Unit Bool :=
  match asNum a, asNum b with
  | some x, some y => .ok (x < y)
  | _, _ =>
    match a, b with
    | .str s, .str t => .ok (decide (s < t))
    | _, _ => .error ()

/-- Python `a + b` on scalar values: numeric addition (booleans as 0/1),
string concatenation, `TypeError` otherwise. -/
def pyAdd (a b : Value) : Except Unit Value :=
  match asNum a, asNum b with
  | some x, some y => .ok (.num (x + y))
  | _, _ =>
    match a, b with
    | .str s, .str t => .ok (.str (s ++ t))
    | _, _ => .error ()

/-- Python `q * v` with a float literal on the left: raises `TypeError` when
`v` is not a number. -/
def pyMulNum (q : ℚ) (v : Value) : Except Unit Value :=
  match asNum v with
  | some x => .ok (.num (q * x))
  | none => .error ()

/-- A record: a Python dict with string keys, embedded as an association list
in insertion order (a dict never holds two entries for one key, and all the
operations below preserve that shape). -/
def Dict := List (String × Value)
deriving DecidableEq, Repr

instance : Membership (String × Value) Dict := inferInstanceAs (Membership _ (List _))

/-- Dict lookup `d.get(k)`: the value stored at `k`, if any. -/
def dLookup (d : Dict) (k : String) : Option Value :=
  match d with
  | [] => none
  | (k', v) :: rest => if k' = k then some v else dLookup rest k

/-- Python `k in d`. -/
def hasKey (d : Dict) (k : String) : Bool :=
  (dLookup d k).isSome

/-- Python `d.get(k, dflt)`. -/
def getD (d : Dict) (k : String) (dflt : Value) : Value :=
  (dLookup d k).getD dflt

/-- Python `d[k]`: raises `KeyError` when the key is absent. -/
def getItem (d : Dict) (k : String) : Except Unit Value :=
  match dLookup d k with
  | some v => .ok v
  | none => .error ()

/-- Python `d[k] = v`: overwrite the entry in place when the key is present,
append a new entry otherwise. -/
def dSet (d : Dict) (k : String) (v : Value) : Dict :=
  match d with
  | [] => [(k, v)]
  | (k', v') :: rest => if k' = k then (k', v) :: rest else (k', v') :: dSet rest k v

/-- The required fields of a user event. -/
def requiredUserFields : List String := ["user_id", "event_type", "timestamp"]

/-- The required fields of a sensor reading. -/
def requiredSensorFields : List String :=
  ["sensor_id", "temperature", "humidity", "pressure", "timestamp"]

/-- The required fields of a transaction. -/
def requiredTransactionFields : List String :=
  ["transaction_id", "user_id", "amount", "currency", "timestamp"]

/-- `validate_user_event`: all required fields present (no value checks). -/
def validate_user_event (data : Dict) : Bool :=
  requiredUserFields.all (fun field => hasKey data field)

/-- `validate_sensor_data`: required fields present, then the chained range
checks `0 <= data['temperature'] <= 50` and `0 <= data['humidity'] <= 100`.
A chained Python comparison evaluates left to right and short-circuits, and
raises `TypeError` on a non-numeric operand. -/
def validate_sensor_data (data : Dict) : Except Unit Bool :=
  if ¬ requiredSensorFields.all (fun field => hasKey data field) then .ok false
  else do
    let t ← getItem data "temperature"
    let t₁ ← pyNumLe 0 t
    let tOk ← if t₁ then pyLeNum t 50 else pure false
    if ¬ tOk then pure false
    else do
      let h ← getItem data "humidity"
      let h₁ ← pyNumLe 0 h
      let hOk ← if h₁ then pyLeNum h 100 else pure false
      if ¬ hOk then pure false
      else pure true

/-- The accepted currencies of `validate_transaction`. -/
def valid_currencies : List String := ["USD", "EUR", "GBP"]

/-- `validate_transaction`: required fields present, `data['amount'] <= 0`
rejected, `data['currency'] not in ['USD', 'EUR', 'GBP']` rejected. -/
def validate_transaction (data : Dict) : Except Unit Bool :=
  if ¬ requiredTransactionFields.all (fun field => hasKey data field) then .ok false
  else do
    let a ← getItem data "amount"
    let bad ← pyLeNum a 0
    if bad then pure false
    else do
      let c ← getItem data "currency"
      if ¬ valid_currencies.any (fun s => pyEq c (.str s)) then pure false
      else pure true

/-- `enrich_user_event`: shallow-copy the input, stamp `processed_at` (the
current time, passed in as `now`) and `data_source`, then bucket `user_id`
(defaulting to 0 when absent) into a `user_segment`. `user_id <= 100` raises
`TypeError` on a non-numeric id. -/
def enrich_user_event (now : String) (data : Dict) : Except Unit Dict := do
  let enriched := data
  let enriched := dSet enriched "processed_at" (.str now)
  let enriched := dSet enriched "data_source" (.str "kafka_stream")
  let user_id := getD data "user_id" (.num 0)
  let b₁ ← pyLeNum user_id 100
  if b₁ then pure (dSet enriched "user_segment" (.str "premium"))
  else do
    let b₂ ← pyLeNum user_id 500
    if b₂ then pure (dSet enriched "user_segment" (.str "regular"))
    else pure (dSet enriched "user_segment" (.str "new"))

/-- `enrich_sensor_data`: shallow-copy, stamp `processed_at`/`data_source`,
compute `heat_index` (`temperature + 0.5 * humidity` when `temperature > 27
and humidity > 40`, short-circuit, else the raw temperature) and the two alert
flags (`or` short-circuits in Python). Temperature and humidity default to 0
when absent. -/
def enrich_sensor_data (now : String) (data : Dict) : Except Unit Dict := do
  let enriched := data
  let enriched := dSet enriched "processed_at" (.str now)
  let enriched := dSet enriched "data_source" (.str "kafka_stream")
  let temperature := getD data "temperature" (.num 0)
  let humidity := getD data "humidity" (.num 0)
  let c₁ ← pyGtNum temperature 27
  let cond ← if c₁ then pyGtNum humidity 40 else pure false
  let enriched ←
    if cond then do
      let half ← pyMulNum (1/2) humidity
      let hi ← pyAdd temperature half
      pure (dSet enriched "heat_index" hi)
    else pure (dSet enriched "heat_index" temperature)
  let a₁ ← pyGtNum temperature 35
  let tAlert ← if a₁ then pure true else pyLtNum temperature 5
  let enriched := dSet enriched "temperature_alert" (.bool tAlert)
  let a₂ ← pyGtNum humidity 90
  let hAlert ← if a₂ then pure true else pyLtNum humidity 10
  pure (dSet enriched "humidity_alert" (.bool hAlert))

/-- `enrich_transaction`: shallow-copy, stamp `processed_at`/`data_source`,
bucket the amount (default 0 when absent) into `transaction_category` and
`fraud_risk`, first matching branch winning. -/
def enrich_transaction (now : String) (data : Dict) : Except Unit Dict := do
  let enriched := data
  let enriched := dSet enriched "processed_at" (.str now)
  let enriched := dSet enriched "data_source" (.str "kafka_stream")
  let amount := getD data "amount" (.num 0)
  let s₁ ← pyLtNum amount 50
  let enriched ←
    if s₁ then pure (dSet enriched "transaction_category" (.str "small"))
    else do
      let s₂ ← pyLtNum amount 200
      if s₂ then pure (dSet enriched "transaction_category" (.str "medium"))
      else pure (dSet enriched "transaction_category" (.str "large"))
  let f₁ ← pyGtNum amount 1000
  if f₁ then pure (dSet enriched "fraud_risk" (.str "high"))
  else do
    let f₂ ← pyGtNum amount 500
    if f₂ then pure (dSet enriched "fraud_risk" (.str "medium"))
    else pure (dSet enriched "fraud_risk" (.str "low"))

/-!
Heap model of Python object identity.  An enrich call starts with
`enriched = data.copy()`, which allocates a fresh dict object, and every
subsequent write (`enriched[k] = v`) mutates only that fresh object.  We model
the heap as a list of dict objects addressed by position; allocation appends
at the end, so the result of an enrich call is the old heap extended with the
fully written copy, together with the fresh address.
-/

/-- The heap of dict objects, addressed by position. -/
abbrev Heap := List Dict

/-- The dict object stored at an address, if the address is live. -/
def heapGet (h : Heap) (a : Nat) : Option Dict := List.get? h a

/-- `enrich_user_event` acting on a heap: read the dict at `a`, allocate the
enriched copy at the fresh address `h.length`, leave every other object
untouched. -/
def enrich_user_eventH (now : String) (h : Heap) (a : Nat) :
    Except Unit (Heap × Nat) :=
  match heapGet h a with
  | some d => (enrich_user_event now d).map (fun e => (h ++ [e], h.length))
  | none => .error ()

/-- `enrich_sensor_data` acting on a heap. -/
def enrich_sensor_dataH (now : String) (h : Heap) (a : Nat) :
    Except Unit (Heap × Nat) :=
  match heapGet h a with
  | some d => (enrich_sensor_data now d).map (fun e => (h ++ [e], h.length))
  | none => .error ()

/-- `enrich_transaction` acting on a heap. -/
def enrich_transactionH (now : String) (h : Heap) (a : Nat) :
    Except Unit (Heap × Nat) :=
  match heapGet h a with
  | some d => (enrich_transaction now d).map (fun e => (h ++ [e], h.length))
  | none => .error ()

/-!
The aggregators build Python dicts whose keys are record field values
(event types, user ids, currencies, merchants), so key equality is Python
`==` (`pyEq`), under which `True` and `1` coincide.  We embed such dicts as
association lists over `Value` keys with `pyEq`-based lookup and update.
-/

/-- Lookup in a `Value`-keyed dict under Python key equality. -/
def vLookup {β : Type} (m : List (Value × β)) (k : Value) : Option β :=
  match m with
  | [] => none
  | (k', v) :: rest => if pyEq k' k then some v else vLookup rest k

/-- Python `m.get(k, dflt)` for a `Value`-keyed dict. -/
def vGetD {β : Type} (m : List (Value × β)) (k : Value) (dflt : β) : β :=
  (vLookup m k).getD dflt

/-- Python `k in m` for a `Value`-keyed dict. -/
def vHasKey {β : Type} (m : List (Value × β)) (k : Value) : Bool :=
  (vLookup m k).isSome

/-- Python `m[k] = v` for a `Value`-keyed dict. -/
def vSet {β : Type} : List (Value × β) → Value → β → List (Value × β)
  | [], k, v => [(k, v)]
  | (k', v') :: rest, k, v =>
    if pyEq k' k then (k', v) :: rest else (k', v') :: vSet rest k v

/-- Python `sum(l)`: fold `+` from the integer 0, so any non-numeric element
raises `TypeError`. -/
def pySum (l : List Value) : Except Unit ℚ :=
  l.foldlM (fun acc v =>
    match asNum v with
    | some x => .ok (acc + x)
    | none => .error ()) 0

/-- Python `max(l)`: raises on an empty list, otherwise keeps the running
maximum under `pyLtV` (so a mixed-type list raises `TypeError`). -/
def pyMax : List Value → Except Unit Value
  | [] => .error ()
  | x :: xs =>
    xs.foldlM (fun acc v => do
      let b ← pyLtV acc v
      pure (if b then v else acc)) x

/-- Python `min(l)`. -/
def pyMin : List Value → Except Unit Value
  | [] => .error ()
  | x :: xs =>
    xs.foldlM (fun acc v => do
      let b ← pyLtV v acc
      pure (if b then v else acc)) x

/-- A value of an aggregation summary: a computed number, a value taken from
the input records (`max`/`min`), or a nested `Value`-keyed dict of numbers. -/
inductive AggValue where
  | anum : ℚ → AggValue
  | aval : Value → AggValue
  | amap : List (Value × ℚ) → AggValue
deriving DecidableEq, Repr

/-- An aggregation summary: a Python dict with string keys whose values are
numbers, record values, or nested count/total dicts. -/
abbrev AggDict := List (String × AggValue)

/-- Lookup in an aggregation summary. -/
def aLookup (d : AggDict) (k : String) : Option AggValue :=
  match d with
  | [] => none
  | (k', v) :: rest => if k' = k then some v else aLookup rest k

/-- The loop of `aggregate_user_events`: one left-to-right pass updating the
`event_types` counts and the `user_activity` per-user lists. -/
def uaLoop : List Dict → List (Value × ℚ) → List (Value × List Value) →
    List (Value × ℚ) × List (Value × List Value)
  | [], event_types, user_activity => (event_types, user_activity)
  | event :: rest, event_types, user_activity =>
    let event_type := getD event "event_type" (.str "unknown")
    let user_id := getD event "user_id" (.num 0)
    let event_types := vSet event_types event_type (vGetD event_types event_type 0 + 1)
    let user_activity :=
      if vHasKey user_activity user_id then
        vSet user_activity user_id (vGetD user_activity user_id [] ++ [event_type])
      else user_activity ++ [(user_id, [event_type])]
    uaLoop rest event_types user_activity

/-- `aggregate_user_events`: empty input gives an empty dict; otherwise one
pass builds per-event-type counts and per-user activity, and the summary
reports the totals, with `len(events) / len(user_activity)` guarded by
`if user_activity else 0`. -/
def aggregate_user_events (events : List Dict) : AggDict :=
  if events.isEmpty then []
  else
    let result := uaLoop events [] []
    [("total_events", .anum events.length),
     ("event_type_counts", .amap result.1),
     ("active_users", .anum result.2.length),
     ("avg_events_per_user",
       .anum (if ¬ result.2.isEmpty then (events.length : ℚ) / result.2.length else 0))]

/-- `aggregate_sensor_data`: empty input gives an empty dict; otherwise
averages and extremes of the defaulted temperature/humidity/pressure columns,
plus the count of records whose `temperature_alert` field is truthy. -/
def aggregate_sensor_data (sensor_readings : List Dict) : Except Unit AggDict :=
  if sensor_readings.isEmpty then .ok []
  else do
    let temperatures := sensor_readings.map (fun r => getD r "temperature" (.num 0))
    let humidities := sensor_readings.map (fun r => getD r "humidity" (.num 0))
    let pressures := sensor_readings.map (fun r => getD r "pressure" (.num 0))
    let st ← pySum temperatures
    let sh ← pySum humidities
    let sp ← pySum pressures
    let mx ← pyMax temperatures
    let mn ← pyMin temperatures
    pure [("total_readings", .anum sensor_readings.length),
          ("avg_temperature", .anum (st / temperatures.length)),
          ("avg_humidity", .anum (sh / humidities.length)),
          ("avg_pressure", .anum (sp / pressures.length)),
          ("max_temperature", .aval mx),
          ("min_temperature", .aval mn),
          ("alerts", .anum (sensor_readings.filter
              (fun r => truthy (getD r "temperature_alert" (.bool false)))).length)]

/-- The loop of `aggregate_transactions`: one pass accumulating per-currency
amount totals and per-merchant counts; adding a non-numeric amount to a
running total raises `TypeError`. -/
def txLoop : List Dict → List (Value × ℚ) → List (Value × ℚ) →
    Except Unit (List (Value × ℚ) × List (Value × ℚ))
  | [], currencies, merchants => .ok (currencies, merchants)
  | transaction :: rest, currencies, merchants => do
    let currency := getD transaction "currency" (.str "unknown")
    let merchant := getD transaction "merchant" (.str "unknown")
    let x ←
      match asNum (getD transaction "amount" (.num 0)) with
      | some x => Except.ok x
      | none => Except.error ()
    let currencies := vSet currencies currency (vGetD currencies currency 0 + x)
    let merchants := vSet merchants merchant (vGetD merchants merchant 0 + 1)
    txLoop rest currencies merchants

/-- `aggregate_transactions`: empty input gives an empty dict; otherwise the
loop totals plus sum/average/max/min over the defaulted amount column. -/
def aggregate_transactions (transactions : List Dict) : Except Unit AggDict :=
  if transactions.isEmpty then .ok []
  else do
    let amounts := transactions.map (fun t => getD t "amount" (.num 0))
    let result ← txLoop transactions [] []
    let s ← pySum amounts
    let mx ← pyMax amounts
    let mn ← pyMin amounts
    pure [("total_transactions", .anum transactions.length),
          ("total_amount", .anum s),
          ("avg_amount", .anum (s / amounts.length)),
          ("currency_totals", .amap result.1),
          ("merchant_counts", .amap result.2),
          ("max_transaction", .aval mx),
          ("min_transaction", .aval mn)]

/-!
Spec-side helper definitions used to state the claims.
-/

/-- The field `k` of `d` holds a number (or a bool, numerically valued)
between `lo` and `hi` inclusive. -/
def InNumRange (d : Dict) (k : String) (lo hi : ℚ) : Prop :=
  ∃ q, (dLookup d k).bind asNum = some q ∧ lo ≤ q ∧ q ≤ hi

/-- The fields `enrich_user_event` writes. -/
def userAddedFields : List String := ["processed_at", "data_source", "user_segment"]

/-- The fields `enrich_sensor_data` writes. -/
def sensorAddedFields : List String :=
  ["processed_at", "data_source", "heat_index", "temperature_alert", "humidity_alert"]

/-- The fields `enrich_transaction` writes. -/
def transactionAddedFields : List String :=
  ["processed_at", "data_source", "transaction_category", "fraud_risk"]

/-- The event type of an event as the aggregation loop reads it. -/
def eventTypeOf (e : Dict) : Value := getD e "event_type" (.str "unknown")

/-- The user id of an event as the aggregation loop reads it. -/
def userIdOf (e : Dict) : Value := getD e "user_id" (.num 0)

/-- How many events of the batch carry the event type `t` (under Python
key equality). -/
def countType (events : List Dict) (t : Value) : ℕ :=
  (events.filter (fun e => pyEq (eventTypeOf e) t)).length

/-- The distinct values of a list under Python equality, first occurrences
in order. -/
def pyDistinct (l : List Value) : List Value :=
  l.foldl (fun acc u => if acc.any (fun w => pyEq w u) then acc else acc ++ [u]) []

/-- A sensor reading with all required fields and a parameterised
temperature, used for the boundary instances of the range check. -/
def sensorReadingAt (t : ℚ) : Dict :=
  [("sensor_id", .str "s1"), ("temperature", .num t), ("humidity", .num 30),
   ("pressure", .num 1000), ("timestamp", .str "2024-01-01T00:00:00")]

/-- A transaction record with a parameterised amount, used for the bucket
boundary instances. -/
def transactionAt (a : ℚ) : Dict :=
  [("transaction_id", .str "t1"), ("user_id", .num 7), ("amount", .num a),
   ("currency", .str "USD"), ("timestamp", .str "2024-01-01T00:00:00")]

/-- A sensor reading carrying the given temperature and humidity. -/
def sensorTH (t h : ℚ) : Dict :=
  [("sensor_id", .str "s1"), ("temperature", .num t), ("humidity", .num h),
   ("pressure", .num 1000), ("timestamp", .str "2024-01-01T00:00:00")]

/-- The three-event batch of the spec's aggregation example: users 1, 1, 2
with event types a, a, b. -/
def exampleUserEvents : List Dict :=
  [[("user_id", .num 1), ("event_type", .str "a"), ("timestamp", .str "t1")],
   [("user_id", .num 1), ("event_type", .str "a"), ("timestamp", .str "t2")],
   [("user_id", .num 2), ("event_type", .str "b"), ("timestamp", .str "t3")]]

/-- The user-segment computation inside `enrich_user_event`, isolated: the
part of the enrichment that can raise and that determines the derived field.
-/
def userSegment (d : Dict) : Except Unit String := do
  let user_id := getD d "user_id" (.num 0)
  let b₁ ← pyLeNum user_id 100
  if b₁ then pure "premium"
  else do
    let b₂ ← pyLeNum user_id 500
    if b₂ then pure "regular" else pure "new"

/-- The derived values of `enrich_sensor_data` (heat index, temperature
alert, humidity alert), isolated with the same effect order as the source. -/
def sensorDerived (d : Dict) : Except Unit (Value × Bool × Bool) := do
  let temperature := getD d "temperature" (.num 0)
  let humidity := getD d "humidity" (.num 0)
  let c₁ ← pyGtNum temperature 27
  let cond ← if c₁ then pyGtNum humidity 40 else pure false
  let hi ← if cond then do
      let half ← pyMulNum (1/2) humidity
      pyAdd temperature half
    else pure temperature
  let a₁ ← pyGtNum temperature 35
  let tAlert ← if a₁ then pure true else pyLtNum temperature 5
  let a₂ ← pyGtNum humidity 90
  let hAlert ← if a₂ then pure true else pyLtNum humidity 10
  pure (hi, tAlert, hAlert)

/-- The derived values of `enrich_transaction` (category, fraud risk),
isolated with the same effect order as the source. -/
def transactionDerived (d : Dict) : Except Unit (String × String) := do
  let amount := getD d "amount" (.num 0)
  let s₁ ← pyLtNum amount 50
  let category ← if s₁ then pure "small"
    else do
      let s₂ ← pyLtNum amount 200
      if s₂ then pure "medium" else pure "large"
  let f₁ ← pyGtNum amount 1000
  if f₁ then pure (category, "high")
  else do
    let f₂ ← pyGtNum amount 500
    if f₂ then pure (category, "medium") else pure (category, "low")

/-- Canonical form of a value as a Python dict key: numbers and booleans by
their numeric value, strings by themselves.  `pyEq` is equality of `keyRep`.
-/
def keyRep (v : Value) : ℚ ⊕ String :=
  match asNum v with
  | some q => .inl q
  | none =>
    match v with
    | .str s => .inr s
    | _ => .inl 0

/-- The field `k` of `d`, when present, holds a value Python treats as a
number (a number or a boolean). -/
def NumericIfPresent (d : Dict) (k : String) : Prop :=
  ∀ v, dLookup d k = some v → (asNum v).isSome = true

/-- Insert each value of `xs` in turn at the end of `l` unless a
`pyEq`-equal value is already there: the key order of a Python dict built by
repeated insertion. -/
def pyInsertAll (l : List Value) (xs : List Value) : List Value :=
  xs.foldl (fun acc u => if acc.any (fun w => pyEq w u) then acc else acc ++ [u]) l

/-- A user event with all three required fields. -/
def exUserEvent : Dict :=
  [("user_id", .num 1), ("event_type", .str "login"), ("timestamp", .str "t0")]

/-- The enrichment of `exUserEvent` at time `"T"`. -/
def exUserEnriched : Dict :=
  [("user_id", .num 1), ("event_type", .str "login"), ("timestamp", .str "t0"),
   ("processed_at", .str "T"), ("data_source", .str "kafka_stream"),
   ("user_segment", .str "premium")]

/-- The enrichment of `sensorTH 30 50` at time `"T"`. -/
def exSensorEnriched : Dict :=
  [("sensor_id", .str "s1"), ("temperature", .num 30), ("humidity", .num 50),
   ("pressure", .num 1000), ("timestamp", .str "2024-01-01T00:00:00"),
   ("processed_at", .str "T"), ("data_source", .str "kafka_stream"),
   ("heat_index", .num 55), ("temperature_alert", .bool false),
   ("humidity_alert", .bool false)]

/-- The enrichment of `transactionAt 1500` at time `"T"`. -/
def exTransactionEnriched : Dict :=
  [("transaction_id", .str "t1"), ("user_id", .num 7), ("amount", .num 1500),
   ("currency", .str "USD"), ("timestamp", .str "2024-01-01T00:00:00"),
   ("processed_at", .str "T"), ("data_source", .str "kafka_stream"),
   ("transaction_category", .str "large"), ("fraud_risk", .str "high")]

/-- A sensor reading with every required key present but a string
temperature. -/
def badSensorReading : Dict :=
  [("sensor_id", .str "s1"), ("temperature", .str "hot"), ("humidity", .num 30),
   ("pressure", .num 1000), ("timestamp", .str "t0")]

/-- A user event that already carries a `data_source` field. -/
def overwriteInput : Dict :=
  [("user_id", .num 1), ("event_type", .str "x"), ("timestamp", .str "t0"),
   ("data_source", .str "old")]

/-!
Lemmas about the dict operations.
-/

@[simp] theorem dLookup_nil (k : String) : dLookup [] k = none := rfl

@[simp] theorem dLookup_cons (k k' : String) (v : Value) (rest : Dict) :
    dLookup ((k', v) :: rest) k = if k' = k then some v else dLookup rest k := rfl

@[simp] theorem dLookup_dSet_self (d : Dict) (k : String) (v : Value) :
    dLookup (dSet d k v) k = some v := by
  induction d with
  | nil => simp [dSet]
  | cons p rest ih =>
    obtain ⟨k', v'⟩ := p
    by_cases h : k' = k <;> simp [dSet, h, ih]

@[simp] theorem dLookup_dSet_ne (d : Dict) (k k' : String) (v : Value) (h : k' ≠ k) :
    dLookup (dSet d k v) k' = dLookup d k' := by
  induction d with
  | nil => simp [dSet, dLookup, Ne.symm h]
  | cons p rest ih =>
    obtain ⟨k₀, v₀⟩ := p
    by_cases h₀ : k₀ = k
    · subst h₀
      simp [dSet, Ne.symm h]
    · by_cases h₁ : k₀ = k' <;> simp [dSet, h₀, h₁, h, ih]

@[simp] theorem dLookup_dSet (d : Dict) (k k' : String) (v : Value) :
    dLookup (dSet d k v) k' = if k = k' then some v else dLookup d k' := by
  by_cases h : k = k'
  · subst h
    simp
  · simp [h, dLookup_dSet_ne d k k' v (Ne.symm h)]

@[simp] theorem asNum_num (q : ℚ) : asNum (.num q) = some q := rfl

@[simp] theorem asNum_str (s : String) : asNum (.str s) = none := rfl

@[simp] theorem asNum_bool (b : Bool) : asNum (.bool b) = some (if b then 1 else 0) := rfl

/-- `enrich_user_event` is the `userSegment` computation followed by the
three pure dict writes. -/
theorem enrich_user_event_eq (now : String) (d : Dict) :
    enrich_user_event now d = (userSegment d).map (fun s =>
      dSet (dSet (dSet d "processed_at" (.str now)) "data_source" (.str "kafka_stream"))
        "user_segment" (.str s)) := by
  unfold enrich_user_event userSegment
  cases hau : asNum (getD d "user_id" (.num 0)) with
  | none =>
    simp [pyLeNum, hau, Bind.bind, Except.instMonad, Except.bind, Except.map]
  | some uq =>
    by_cases h100 : uq ≤ 100 <;> by_cases h500 : uq ≤ 500 <;>
      simp [pyLeNum, hau, h100, h500, Bind.bind, Except.instMonad, Except.bind,
        pure, Pure.pure, Except.pure, Except.map]

/-- `enrich_sensor_data` is the `sensorDerived` computation followed by the
five pure dict writes. -/
theorem enrich_sensor_data_eq (now : String) (d : Dict) :
    enrich_sensor_data now d = (sensorDerived d).map (fun w =>
      dSet (dSet (dSet (dSet (dSet d "processed_at" (.str now)) "data_source"
        (.str "kafka_stream")) "heat_index" w.1) "temperature_alert" (.bool w.2.1))
        "humidity_alert" (.bool w.2.2)) := by
  unfold enrich_sensor_data sensorDerived
  cases hat : asNum (getD d "temperature" (.num 0)) with
  | none =>
    simp [pyGtNum, hat, Bind.bind, Except.instMonad, Except.bind, Except.map]
  | some tq =>
    cases hah : asNum (getD d "humidity" (.num 0)) with
    | none =>
      by_cases h27 : (27:ℚ) < tq <;> by_cases h35 : (35:ℚ) < tq <;> by_cases h5 : tq < 5 <;>
        simp [pyGtNum, pyLtNum, pyMulNum, pyAdd, hat, hah, h27, h35, h5,
          Bind.bind, Except.instMonad, Except.bind, pure, Pure.pure, Except.pure, Except.map]
    | some hq =>
      by_cases h27 : (27:ℚ) < tq <;> by_cases h40 : (40:ℚ) < hq <;>
        by_cases h35 : (35:ℚ) < tq <;> by_cases h5 : tq < 5 <;>
        by_cases h90 : (90:ℚ) < hq <;> by_cases h10 : hq < 10 <;>
        simp [pyGtNum, pyLtNum, pyMulNum, pyAdd, hat, hah, h27, h40, h35, h5, h90, h10,
          Bind.bind, Except.instMonad, Except.bind, pure, Pure.pure, Except.pure, Except.map]

/-- `enrich_transaction` is the `transactionDerived` computation followed by
the four pure dict writes. -/
theorem enrich_transaction_eq (now : String) (d : Dict) :
    enrich_transaction now d = (transactionDerived d).map (fun w =>
      dSet (dSet (dSet (dSet d "processed_at" (.str now)) "data_source"
        (.str "kafka_stream")) "transaction_category" (.str w.1)) "fraud_risk" (.str w.2)) := by
  unfold enrich_transaction transactionDerived
  cases haa : asNum (getD d "amount" (.num 0)) with
  | none =>
    simp [pyLtNum, haa, Bind.bind, Except.instMonad, Except.bind, Except.map]
  | some aq =>
    by_cases h50 : aq < 50 <;> by_cases h200 : aq < 200 <;>
      by_cases h1000 : (1000:ℚ) < aq <;> by_cases h500 : (500:ℚ) < aq <;>
      simp [pyLtNum, pyGtNum, haa, h50, h200, h1000, h500,
        Bind.bind, Except.instMonad, Except.bind, pure, Pure.pure, Except.pure, Except.map]

/-- `validate_user_event` reads only the three required fields. -/
theorem validate_user_event_congr (d₁ d₂ : Dict)
    (h₁ : dLookup d₁ "user_id" = dLookup d₂ "user_id")
    (h₂ : dLookup d₁ "event_type" = dLookup d₂ "event_type")
    (h₃ : dLookup d₁ "timestamp" = dLookup d₂ "timestamp") :
    validate_user_event d₁ = validate_user_event d₂ := by
  simp [validate_user_event, requiredUserFields, hasKey, h₁, h₂, h₃]

/-- `validate_sensor_data` reads only the five required fields. -/
theorem validate_sensor_data_congr (d₁ d₂ : Dict)
    (h₁ : dLookup d₁ "sensor_id" = dLookup d₂ "sensor_id")
    (h₂ : dLookup d₁ "temperature" = dLookup d₂ "temperature")
    (h₃ : dLookup d₁ "humidity" = dLookup d₂ "humidity")
    (h₄ : dLookup d₁ "pressure" = dLookup d₂ "pressure")
    (h₅ : dLookup d₁ "timestamp" = dLookup d₂ "timestamp") :
    validate_sensor_data d₁ = validate_sensor_data d₂ := by
  unfold validate_sensor_data
  simp only [requiredSensorFields, hasKey, getItem, List.all_cons, List.all_nil,
    h₁, h₂, h₃, h₄, h₅]

/-- `validate_transaction` reads only the five required fields. -/
theorem validate_transaction_congr (d₁ d₂ : Dict)
    (h₁ : dLookup d₁ "transaction_id" = dLookup d₂ "transaction_id")
    (h₂ : dLookup d₁ "user_id" = dLookup d₂ "user_id")
    (h₃ : dLookup d₁ "amount" = dLookup d₂ "amount")
    (h₄ : dLookup d₁ "currency" = dLookup d₂ "currency")
    (h₅ : dLookup d₁ "timestamp" = dLookup d₂ "timestamp") :
    validate_transaction d₁ = validate_transaction d₂ := by
  unfold validate_transaction
  simp only [requiredTransactionFields, hasKey, getItem, List.all_cons, List.all_nil,
    h₁, h₂, h₃, h₄, h₅]

/-- Appending a fresh object to the heap leaves the live addresses intact. -/
theorem heapGet_append_lt (h : Heap) (e : Dict) (a : Nat) (ha : a < h.length) :
    heapGet (h ++ [e]) a = heapGet h a := by
  unfold heapGet
  rw [List.get?_eq_getElem?, List.get?_eq_getElem?, List.getElem?_append_left ha]

/-- Frame property of the copy-then-write heap pattern shared by the three
enrichers: a successful run returns a fresh address and leaves the input
object unchanged. -/
theorem enrichH_frame (F : Dict → Except Unit Dict) (h : Heap) (a : Nat) (res : Heap × Nat)
    (ha : a < h.length)
    (hres : (match heapGet h a with
        | some d => (F d).map (fun e => (h ++ [e], h.length))
        | none => .error ()) = .ok res) :
    res.2 ≠ a ∧ heapGet res.1 a = heapGet h a := by
  cases hd : heapGet h a with
  | none => simp [hd] at hres
  | some d =>
    cases hF : F d with
    | error u => simp [hd, hF, Except.map] at hres
    | ok e =>
      simp [hd, hF, Except.map] at hres
      subst hres
      refine ⟨by simpa using (Nat.ne_of_lt ha).symm, (heapGet_append_lt h e a ha).trans hd⟩

/-- Python `==` on scalar values is equality of canonical key
representations. -/
theorem pyEq_iff (a b : Value) : pyEq a b = true ↔ keyRep a = keyRep b := by
  cases a <;> cases b <;> simp [pyEq, keyRep, asNum]

/-- `pyEq`-equal keys read alike in a `Value`-keyed dict. -/
theorem vLookup_congr {β : Type} (m : List (Value × β)) (k k' : Value)
    (h : pyEq k k' = true) : vLookup m k = vLookup m k' := by
  induction m with
  | nil => rfl
  | cons p rest ih =>
    have hk : pyEq p.1 k = pyEq p.1 k' := by
      rw [Bool.eq_iff_iff, pyEq_iff, pyEq_iff, (pyEq_iff k k').mp h]
    obtain ⟨k₀, v₀⟩ := p
    simp only [vLookup] at hk ⊢
    rw [hk, ih]

/-- Reading a `Value`-keyed dict after a write. -/
theorem vLookup_vSet {β : Type} (m : List (Value × β)) (k k' : Value) (v : β) :
    vLookup (vSet m k v) k' = if pyEq k k' then some v else vLookup m k' := by
  induction m with
  | nil => simp [vSet, vLookup]
  | cons p rest ih =>
    obtain ⟨k₀, v₀⟩ := p
    by_cases h₀ : pyEq k₀ k = true
    · have hk : pyEq k₀ k' = pyEq k k' := by
        rw [Bool.eq_iff_iff, pyEq_iff, pyEq_iff, (pyEq_iff k₀ k).mp h₀]
      simp only [vSet, h₀, if_true, vLookup, hk]
      by_cases hkk : pyEq k k' = true <;> simp [hkk]
    · simp only [vSet, h₀, if_false, vLookup, ih]
      by_cases h₁ : pyEq k k' = true
      · have hne : pyEq k₀ k' = false := by
          by_contra hc
          rw [Bool.not_eq_false] at hc
          exact h₀ (by
            rw [pyEq_iff, (pyEq_iff k₀ k').mp hc, ← (pyEq_iff k k').mp h₁])
        simp [h₁, hne]
      · simp [h₁]

/-- Defaulted read of a `Value`-keyed dict after a write. -/
theorem vGetD_vSet (m : List (Value × ℚ)) (k k' : Value) (v : ℚ) :
    vGetD (vSet m k v) k' 0 = if pyEq k k' then v else vGetD m k' 0 := by
  unfold vGetD
  rw [vLookup_vSet]
  by_cases h : pyEq k k' = true <;> simp [h]

/-- Membership in a `Value`-keyed dict as an `any` over the entries. -/
theorem vHasKey_eq_any {β : Type} (m : List (Value × β)) (k : Value) :
    vHasKey m k = m.any (fun p => pyEq p.1 k) := by
  induction m with
  | nil => rfl
  | cons p rest ih =>
    obtain ⟨k₀, v₀⟩ := p
    by_cases h : pyEq k₀ k = true <;>
      · simp only [vHasKey, vLookup, h, if_true, if_false, Option.isSome_some, List.any_cons,
          Bool.true_or, ← ih]
        try rfl

/-- Overwriting a present key leaves the key order of a dict unchanged. -/
theorem vSet_map_fst {β : Type} (m : List (Value × β)) (k : Value) (v : β)
    (hm : vHasKey m k = true) : (vSet m k v).map Prod.fst = m.map Prod.fst := by
  induction m with
  | nil => simp [vHasKey, vLookup] at hm
  | cons p rest ih =>
    obtain ⟨k₀, v₀⟩ := p
    by_cases h : pyEq k₀ k = true
    · simp [vSet, h]
    · simp only [vHasKey, vLookup, h, if_false] at hm
      simp [vSet, h, ih hm]

/-- One step of the per-type event count. -/
theorem countType_cons (e : Dict) (rest : List Dict) (t : Value) :
    countType (e :: rest) t
      = countType rest t + (if pyEq (eventTypeOf e) t = true then 1 else 0) := by
  by_cases h : pyEq (eventTypeOf e) t = true <;>
    simp [countType, List.filter_cons, h, Nat.add_comm]

/-- The loop of `aggregate_user_events` counts each event type. -/
theorem uaLoop_counts (evs : List Dict) :
    ∀ (et : List (Value × ℚ)) (ua : List (Value × List Value)) (t : Value),
      vGetD (uaLoop evs et ua).1 t 0 = vGetD et t 0 + (countType evs t : ℚ) := by
  induction evs with
  | nil => intro et ua t; simp [uaLoop, countType]
  | cons e rest ih =>
    intro et ua t
    simp only [uaLoop]
    simp only [show ∀ x : Dict, getD x "event_type" (Value.str "unknown") = eventTypeOf x
        from fun _ => rfl,
      show ∀ x : Dict, getD x "user_id" (Value.num 0) = userIdOf x from fun _ => rfl]
    rw [ih, vGetD_vSet, countType_cons]
    by_cases hty : pyEq (eventTypeOf e) t = true
    · rw [if_pos hty]
      have hc : vGetD et (eventTypeOf e) 0 = vGetD et t 0 := by
        unfold vGetD
        rw [vLookup_congr et _ _ hty]
      rw [hc, if_pos hty]
      push_cast
      ring
    · rw [if_neg hty, if_neg hty]
      push_cast
      ring

/-- The loop of `aggregate_user_events` collects the distinct user ids, in
first-appearance order. -/
theorem uaLoop_keys (evs : List Dict) :
    ∀ (et : List (Value × ℚ)) (ua : List (Value × List Value)),
      (uaLoop evs et ua).2.map Prod.fst = pyInsertAll (ua.map Prod.fst) (evs.map userIdOf) := by
  induction evs with
  | nil => intro et ua; simp [uaLoop, pyInsertAll]
  | cons e rest ih =>
    intro et ua
    simp only [uaLoop, List.map_cons]
    simp only [show ∀ x : Dict, getD x "event_type" (Value.str "unknown") = eventTypeOf x
        from fun _ => rfl,
      show ∀ x : Dict, getD x "user_id" (Value.num 0) = userIdOf x from fun _ => rfl]
    rw [ih]
    have hany : ((List.map Prod.fst ua).any fun w => pyEq w (userIdOf e))
        = vHasKey ua (userIdOf e) := by
      rw [vHasKey_eq_any]
      induction ua with
      | nil => rfl
      | cons p ps ihp => simp [List.map_cons, List.any_cons, ihp]
    have step : pyInsertAll (List.map Prod.fst ua) (userIdOf e :: List.map userIdOf rest)
        = pyInsertAll (if vHasKey ua (userIdOf e) = true
            then List.map Prod.fst ua else List.map Prod.fst ua ++ [userIdOf e])
          (List.map userIdOf rest) := by
      unfold pyInsertAll
      rw [List.foldl_cons, hany]
    rw [step]
    by_cases hu : vHasKey ua (userIdOf e) = true
    · rw [if_pos hu, if_pos hu, vSet_map_fst ua _ _ hu]
    · rw [if_neg hu, if_neg hu, List.map_append]
      rfl

/-- Inserting never shortens the accumulated key list. -/
theorem pyInsertAll_length_ge (xs : List Value) :
    ∀ l : List Value, l.length ≤ (pyInsertAll l xs).length := by
  induction xs with
  | nil => intro l; simp [pyInsertAll]
  | cons u us ih =>
    intro l
    unfold pyInsertAll
    rw [List.foldl_cons]
    by_cases h : l.any (fun w => pyEq w u) = true
    · rw [if_pos h]
      exact ih l
    · rw [if_neg h]
      calc l.length ≤ (l ++ [u]).length := by simp
        _ ≤ _ := ih (l ++ [u])

/-- A field whose looked-up value is a number literal is numeric. -/
theorem numericIfPresent_of_lookup (d : Dict) (k : String) (q : ℚ)
    (h : dLookup d k = some (.num q)) : NumericIfPresent d k := by
  intro v hv
  rw [h] at hv
  injection hv with hv'
  rw [← hv']
  rfl

/-- `validate_sensor_data` accepts exactly the records with all five required
fields and in-range numeric temperature and humidity. -/
theorem validate_sensor_data_ok_true_iff (d : Dict) :
    validate_sensor_data d = .ok true ↔
      (requiredSensorFields.all (fun f => hasKey d f) = true ∧
        InNumRange d "temperature" 0 50 ∧ InNumRange d "humidity" 0 100) := by
  unfold validate_sensor_data
  by_cases hall : requiredSensorFields.all (fun f => hasKey d f) = true
  · have ht : ∃ v, dLookup d "temperature" = some v := by
      have := (List.all_eq_true.mp hall) "temperature" (by simp [requiredSensorFields])
      simpa [hasKey, Option.isSome_iff_exists] using this
    have hh : ∃ v, dLookup d "humidity" = some v := by
      have := (List.all_eq_true.mp hall) "humidity" (by simp [requiredSensorFields])
      simpa [hasKey, Option.isSome_iff_exists] using this
    obtain ⟨tv, htv⟩ := ht
    obtain ⟨hv, hhv⟩ := hh
    cases hta : asNum tv with
    | none =>
      simp [hall, getItem, htv, hhv, pyNumLe, pyLeNum, hta, InNumRange,
        Bind.bind, Except.instMonad, Except.bind]
    | some tq =>
      cases hha : asNum hv with
      | none =>
        by_cases h1 : (0:ℚ) ≤ tq <;> by_cases h2 : tq ≤ 50 <;>
          simp [hall, getItem, htv, hhv, pyNumLe, pyLeNum, hta, hha, h1, h2, InNumRange,
            Bind.bind, Except.instMonad, Except.bind, pure, Pure.pure, Except.pure]
      | some hq =>
        by_cases h1 : (0:ℚ) ≤ tq <;> by_cases h2 : tq ≤ 50 <;>
          by_cases h3 : (0:ℚ) ≤ hq <;> by_cases h4 : hq ≤ 100 <;>
          simp [hall, getItem, htv, hhv, pyNumLe, pyLeNum, hta, hha, h1, h2, h3, h4, InNumRange,
            Bind.bind, Except.instMonad, Except.bind, pure, Pure.pure, Except.pure]
  · simp [hall, InNumRange]

/-!
Claim theorems.
-/

/-- C1: `validate_sensor_data` returns true iff the five required keys
`sensor_id, temperature, humidity, pressure, timestamp` are present and the
temperature lies in `[0, 50]` and the humidity in `[0, 100]`, both boundaries
inclusive and with no range check on pressure; in particular the fully
populated reading with temperature 50 is valid and with temperature 50.1 is
invalid. -/
theorem C1_validate_sensor_data_range :
    (∀ d : Dict, validate_sensor_data d = .ok true ↔
      (requiredSensorFields.all (fun f => hasKey d f) = true ∧
        InNumRange d "temperature" 0 50 ∧ InNumRange d "humidity" 0 100))
    ∧ validate_sensor_data (sensorReadingAt 50) = .ok true
    ∧ validate_sensor_data (sensorReadingAt (mkRat 501 10)) = .ok false :=
  ⟨validate_sensor_data_ok_true_iff, by decide, by decide⟩

/-- C7: each of the three aggregators maps the empty batch to the empty
summary dict, raising no exception (`aggregate_user_events` is total by its
type; the other two return `.ok` here rather than an error). -/
theorem C7_aggregate_empty_input :
    aggregate_user_events [] = [] ∧ aggregate_sensor_data [] = .ok []
      ∧ aggregate_transactions [] = .ok [] :=
  ⟨rfl, rfl, rfl⟩

/-- C3: `enrich_transaction` buckets the amount into `transaction_category`
(`small` below 50, `medium` from 50 below 200, `large` otherwise) and
`fraud_risk` (`high` above 1000, `medium` above 500 up to 1000, `low`
otherwise), the first matching branch winning. -/
theorem C3_enrich_transaction_buckets :
    ∀ (now : String) (d : Dict) (a : ℚ),
      getD d "amount" (.num 0) = .num a →
      ∃ e, enrich_transaction now d = .ok e
        ∧ dLookup e "transaction_category" =
            some (.str (if a < 50 then "small" else if a < 200 then "medium" else "large"))
        ∧ dLookup e "fraud_risk" =
            some (.str (if 1000 < a then "high" else if 500 < a then "medium" else "low")) := by
  intro now d a h
  unfold enrich_transaction
  by_cases h1 : a < 50 <;> by_cases h2 : a < 200 <;>
    by_cases h3 : (1000:ℚ) < a <;> by_cases h4 : (500:ℚ) < a <;>
    simp [h, h1, h2, h3, h4, pyLtNum, pyGtNum, asNum,
      Bind.bind, Except.instMonad, Except.bind, pure, Pure.pure, Except.pure]

/-- Witness for C3: amount 49.99 is categorised `small` and amount 1500 is
rated `high` fraud risk. -/
theorem C3_enrich_transaction_buckets_witness :
    (∃ e, enrich_transaction "2024-01-01T00:00:00" (transactionAt (mkRat 4999 100)) = .ok e
        ∧ dLookup e "transaction_category" = some (.str "small"))
    ∧ (∃ e, enrich_transaction "2024-01-01T00:00:00" (transactionAt 1500) = .ok e
        ∧ dLookup e "fraud_risk" = some (.str "high")) := by
  constructor
  · obtain ⟨e, he, hc, hf⟩ :=
      C3_enrich_transaction_buckets "2024-01-01T00:00:00" (transactionAt (mkRat 4999 100))
        (mkRat 4999 100) rfl
    refine ⟨e, he, ?_⟩
    rw [hc]
    decide
  · obtain ⟨e, he, hc, hf⟩ :=
      C3_enrich_transaction_buckets "2024-01-01T00:00:00" (transactionAt 1500)
        1500 rfl
    refine ⟨e, he, ?_⟩
    rw [hf]
    decide

/-- C4: `enrich_sensor_data` computes `heat_index` as
`temperature + 0.5 * humidity` exactly when the temperature exceeds 27 and
the humidity exceeds 40, and as the raw temperature otherwise, and sets the
two alert flags from the 35/5 and 90/10 thresholds. -/
theorem C4_enrich_sensor_data_derived_fields :
    ∀ (now : String) (d : Dict) (t h : ℚ),
      getD d "temperature" (.num 0) = .num t →
      getD d "humidity" (.num 0) = .num h →
      ∃ e, enrich_sensor_data now d = .ok e
        ∧ dLookup e "heat_index" =
            some (if 27 < t ∧ 40 < h then .num (t + (1/2) * h) else .num t)
        ∧ dLookup e "temperature_alert" = some (.bool (decide (35 < t) || decide (t < 5)))
        ∧ dLookup e "humidity_alert" = some (.bool (decide (90 < h) || decide (h < 10))) := by
  intro now d t h ht hh
  unfold enrich_sensor_data
  by_cases hc1 : (27:ℚ) < t <;> by_cases hc2 : (40:ℚ) < h <;>
    by_cases a1 : (35:ℚ) < t <;> by_cases a2 : t < 5 <;>
    by_cases b1 : (90:ℚ) < h <;> by_cases b2 : h < 10 <;>
    simp [ht, hh, hc1, hc2, a1, a2, b1, b2, pyLtNum, pyGtNum, pyMulNum, pyAdd, asNum,
      Bind.bind, Except.instMonad, Except.bind, pure, Pure.pure, Except.pure]

/-- Witness for C4: temperature 30 with humidity 50 yields heat index 55, and
temperature 10 with humidity 20 yields heat index 10. -/
theorem C4_enrich_sensor_data_derived_fields_witness :
    (∃ e, enrich_sensor_data "2024-01-01T00:00:00" (sensorTH 30 50) = .ok e
        ∧ dLookup e "heat_index" = some (.num 55))
    ∧ (∃ e, enrich_sensor_data "2024-01-01T00:00:00" (sensorTH 10 20) = .ok e
        ∧ dLookup e "heat_index" = some (.num 10)) := by
  constructor
  · obtain ⟨e, he, hi, hta, hha⟩ :=
      C4_enrich_sensor_data_derived_fields "2024-01-01T00:00:00" (sensorTH 30 50) 30 50
        rfl rfl
    refine ⟨e, he, ?_⟩
    rw [hi]
    with_unfolding_all decide
  · obtain ⟨e, he, hi, hta, hha⟩ :=
      C4_enrich_sensor_data_derived_fields "2024-01-01T00:00:00" (sensorTH 10 20) 10 20
        rfl rfl
    refine ⟨e, he, ?_⟩
    rw [hi]
    with_unfolding_all decide

/-- Counterexample to C2 as stated: a sensor reading with every required key
present but a string temperature makes `validate_sensor_data` raise a
`TypeError` (the chained comparison `0 <= data['temperature']` fails), so the
validators are not total on all records. -/
theorem C2_counterexample_string_temperature_raises :
    validate_sensor_data badSensorReading = .error () := by decide

/-- C2 (amended): a record missing a required key yields `false` from every
validator — never an exception, because the presence check runs first — and
the validators never raise on any record whose numerically compared fields
(`temperature` and `humidity` for sensor readings, `amount` for
transactions), where present, hold values Python treats as numbers.  As
stated the claim fails: a present non-numeric `temperature` or `amount`
raises `TypeError` (see the counterexample). -/
theorem C2_validators_total_amended :
    ∀ d : Dict,
      (¬ requiredUserFields.all (fun f => hasKey d f) = true → validate_user_event d = false)
      ∧ (¬ requiredSensorFields.all (fun f => hasKey d f) = true →
          validate_sensor_data d = .ok false)
      ∧ (¬ requiredTransactionFields.all (fun f => hasKey d f) = true →
          validate_transaction d = .ok false)
      ∧ (NumericIfPresent d "temperature" → NumericIfPresent d "humidity" →
          ∃ b, validate_sensor_data d = .ok b)
      ∧ (NumericIfPresent d "amount" → ∃ b, validate_transaction d = .ok b) := by
  intro d
  refine ⟨?_, ?_, ?_, ?_, ?_⟩
  · intro h
    cases hb : requiredUserFields.all (fun f => hasKey d f)
    · exact hb
    · exact absurd hb h
  · intro h
    cases hb : requiredSensorFields.all (fun f => hasKey d f)
    · simp [validate_sensor_data, hb]
    · exact absurd hb h
  · intro h
    cases hb : requiredTransactionFields.all (fun f => hasKey d f)
    · simp [validate_transaction, hb]
    · exact absurd hb h
  · intro hT hH
    by_cases hall : requiredSensorFields.all (fun f => hasKey d f) = true
    · have ht : ∃ v, dLookup d "temperature" = some v := by
        have := (List.all_eq_true.mp hall) "temperature" (by simp [requiredSensorFields])
        simpa [hasKey, Option.isSome_iff_exists] using this
      have hh : ∃ v, dLookup d "humidity" = some v := by
        have := (List.all_eq_true.mp hall) "humidity" (by simp [requiredSensorFields])
        simpa [hasKey, Option.isSome_iff_exists] using this
      obtain ⟨tv, htv⟩ := ht
      obtain ⟨hv, hhv⟩ := hh
      obtain ⟨tq, htq⟩ := Option.isSome_iff_exists.mp (hT tv htv)
      obtain ⟨hq, hhq⟩ := Option.isSome_iff_exists.mp (hH hv hhv)
      refine ⟨decide ((0 ≤ tq ∧ tq ≤ 50) ∧ (0 ≤ hq ∧ hq ≤ 100)), ?_⟩
      unfold validate_sensor_data
      by_cases h1 : (0:ℚ) ≤ tq <;> by_cases h2 : tq ≤ 50 <;>
        by_cases h3 : (0:ℚ) ≤ hq <;> by_cases h4 : hq ≤ 100 <;>
        simp [hall, getItem, htv, hhv, pyNumLe, pyLeNum, htq, hhq, h1, h2, h3, h4,
          Bind.bind, Except.instMonad, Except.bind, pure, Pure.pure, Except.pure]
    · exact ⟨false, by simp [validate_sensor_data, hall]⟩
  · intro hA
    by_cases hall : requiredTransactionFields.all (fun f => hasKey d f) = true
    · have ha : ∃ v, dLookup d "amount" = some v := by
        have := (List.all_eq_true.mp hall) "amount" (by simp [requiredTransactionFields])
        simpa [hasKey, Option.isSome_iff_exists] using this
      have hc : ∃ v, dLookup d "currency" = some v := by
        have := (List.all_eq_true.mp hall) "currency" (by simp [requiredTransactionFields])
        simpa [hasKey, Option.isSome_iff_exists] using this
      obtain ⟨av, hav⟩ := ha
      obtain ⟨cv, hcv⟩ := hc
      obtain ⟨aq, haq⟩ := Option.isSome_iff_exists.mp (hA av hav)
      by_cases hle : aq ≤ 0
      · exact ⟨false, by simp [validate_transaction, hall, getItem, hav, hcv, pyLeNum, haq, hle,
          Bind.bind, Except.instMonad, Except.bind, pure, Pure.pure, Except.pure]⟩
      · by_cases hcur : valid_currencies.any (fun s => pyEq cv (.str s)) = true
        · exact ⟨true, by simp [validate_transaction, hall, getItem, hav, hcv, pyLeNum, haq, hle,
            hcur, Bind.bind, Except.instMonad, Except.bind, pure, Pure.pure, Except.pure]⟩
        · exact ⟨false, by simp [validate_transaction, hall, getItem, hav, hcv, pyLeNum, haq, hle,
            hcur, Bind.bind, Except.instMonad, Except.bind, pure, Pure.pure, Except.pure]⟩
    · exact ⟨false, by simp [validate_transaction, hall]⟩

/-- Witness for the amended C2: the empty record is rejected with `false` by
all three validators, and fully numeric records are validated without an
error. -/
theorem C2_validators_total_amended_witness :
    validate_user_event [] = false
    ∧ validate_sensor_data [] = .ok false
    ∧ validate_transaction [] = .ok false
    ∧ (∃ b, validate_sensor_data (sensorTH 30 50) = .ok b)
    ∧ (∃ b, validate_transaction (transactionAt 1500) = .ok b) :=
  ⟨(C2_validators_total_amended []).1 (by decide),
   (C2_validators_total_amended []).2.1 (by decide),
   (C2_validators_total_amended []).2.2.1 (by decide),
   (C2_validators_total_amended (sensorTH 30 50)).2.2.2.1
     (numericIfPresent_of_lookup _ _ 30 rfl) (numericIfPresent_of_lookup _ _ 50 rfl),
   (C2_validators_total_amended (transactionAt 1500)).2.2.2.2
     (numericIfPresent_of_lookup _ _ 1500 rfl)⟩

/-- C5: on the heap model, each enricher allocates its result at a fresh
address (`data.copy()`) and, succeeding, leaves the input dict object
unchanged: the returned address differs from the input address and the input
address still holds exactly its old keys and values. -/
theorem C5_enrich_never_mutates_input :
    ∀ (now : String) (h : Heap) (a : Nat) (res : Heap × Nat), a < h.length →
      (enrich_user_eventH now h a = .ok res ∨ enrich_sensor_dataH now h a = .ok res
        ∨ enrich_transactionH now h a = .ok res) →
      res.2 ≠ a ∧ heapGet res.1 a = heapGet h a := by
  intro now h a res ha hres
  rcases hres with h1 | h2 | h3
  · exact enrichH_frame (enrich_user_event now) h a res ha h1
  · exact enrichH_frame (enrich_sensor_data now) h a res ha h2
  · exact enrichH_frame (enrich_transaction now) h a res ha h3

/-- Witness for C5: enriching the one-object heap returns address 1, distinct
from the input address 0, whose contents are unchanged. -/
theorem C5_enrich_never_mutates_input_witness :
    (([exUserEvent, exUserEnriched] : Heap), 1).2 ≠ 0
    ∧ heapGet (([exUserEvent, exUserEnriched] : Heap), 1).1 0 = heapGet [exUserEvent] 0 :=
  C5_enrich_never_mutates_input "T" [exUserEvent] 0 ([exUserEvent, exUserEnriched], 1)
    (by decide) (Or.inl (by decide))

/-- Counterexample to C6 as stated: when the input record already carries a
`data_source` field, `enrich_user_event` overwrites it — the input binds
`data_source` to `"old"` but the successfully returned record binds it to
`"kafka_stream"`, a different value, so not every key of the input appears in
the output bound to the value it had. -/
theorem C6_counterexample_data_source_overwritten :
    dLookup overwriteInput "data_source" = some (.str "old")
    ∧ (enrich_user_event "T" overwriteInput).map (fun e => dLookup e "data_source")
        = .ok (some (.str "kafka_stream"))
    ∧ (some (Value.str "kafka_stream") = some (Value.str "old")) = False := by
  refine ⟨by decide, by decide, by simp⟩

/-- C6 (amended): each enricher preserves every input field whose key is not
among the derived field names it writes, and its output carries every derived
field; a key of the input that collides with a derived field name
(`processed_at`, `data_source`, and the kind's own derived fields) is
overwritten, which is the only violation of the claim as stated. -/
theorem C6_enrich_preserves_fields_amended :
    ∀ (now : String) (d e : Dict) (k : String),
      (enrich_user_event now d = .ok e →
        (k ∉ userAddedFields → dLookup e k = dLookup d k)
        ∧ (k ∈ userAddedFields → (dLookup e k).isSome = true))
      ∧ (enrich_sensor_data now d = .ok e →
        (k ∉ sensorAddedFields → dLookup e k = dLookup d k)
        ∧ (k ∈ sensorAddedFields → (dLookup e k).isSome = true))
      ∧ (enrich_transaction now d = .ok e →
        (k ∉ transactionAddedFields → dLookup e k = dLookup d k)
        ∧ (k ∈ transactionAddedFields → (dLookup e k).isSome = true)) := by
  intro now d e k
  refine ⟨?_, ?_, ?_⟩
  · intro he
    rw [enrich_user_event_eq] at he
    cases hs : userSegment d with
    | error u => simp [hs, Except.map] at he
    | ok sgm =>
      simp [hs, Except.map] at he
      subst he
      constructor
      · intro hk
        simp [userAddedFields] at hk
        obtain ⟨h1, h2, h3⟩ := hk
        simp [Ne.symm h1, Ne.symm h2, Ne.symm h3]
      · intro hk
        simp [userAddedFields] at hk
        rcases hk with rfl | rfl | rfl <;> simp
  · intro he
    rw [enrich_sensor_data_eq] at he
    cases hs : sensorDerived d with
    | error u => simp [hs, Except.map] at he
    | ok w =>
      simp [hs, Except.map] at he
      subst he
      constructor
      · intro hk
        simp [sensorAddedFields] at hk
        obtain ⟨h1, h2, h3, h4, h5⟩ := hk
        simp [Ne.symm h1, Ne.symm h2, Ne.symm h3, Ne.symm h4, Ne.symm h5]
      · intro hk
        simp [sensorAddedFields] at hk
        rcases hk with rfl | rfl | rfl | rfl | rfl <;> simp
  · intro he
    rw [enrich_transaction_eq] at he
    cases hs : transactionDerived d with
    | error u => simp [hs, Except.map] at he
    | ok w =>
      simp [hs, Except.map] at he
      subst he
      constructor
      · intro hk
        simp [transactionAddedFields] at hk
        obtain ⟨h1, h2, h3, h4⟩ := hk
        simp [Ne.symm h1, Ne.symm h2, Ne.symm h3, Ne.symm h4]
      · intro hk
        simp [transactionAddedFields] at hk
        rcases hk with rfl | rfl | rfl | rfl <;> simp

/-- Witness for the amended C6: the enriched user event keeps `event_type`
and carries the derived `user_segment`. -/
theorem C6_enrich_preserves_fields_amended_witness :
    dLookup exUserEnriched "event_type" = dLookup exUserEvent "event_type"
    ∧ (dLookup exUserEnriched "user_segment").isSome = true :=
  ⟨((C6_enrich_preserves_fields_amended "T" exUserEvent exUserEnriched "event_type").1
      (by decide)).1 (by decide),
   ((C6_enrich_preserves_fields_amended "T" exUserEvent exUserEnriched "user_segment").1
      (by decide)).2 (by decide)⟩

/-- C9: the only non-determinism in the three components is the wall-clock
read of the enrichers, and it flows only into `processed_at`: two runs of the
same enricher at different clock readings agree, error-or-value, on the
lookup of every other key.  The validators and aggregators are functions of
their input alone by construction. -/
theorem C9_deterministic_up_to_clock :
    ∀ (now₁ now₂ : String) (d : Dict) (k : String), k ≠ "processed_at" →
      (enrich_user_event now₁ d).map (fun e => dLookup e k)
          = (enrich_user_event now₂ d).map (fun e => dLookup e k)
      ∧ (enrich_sensor_data now₁ d).map (fun e => dLookup e k)
          = (enrich_sensor_data now₂ d).map (fun e => dLookup e k)
      ∧ (enrich_transaction now₁ d).map (fun e => dLookup e k)
          = (enrich_transaction now₂ d).map (fun e => dLookup e k) := by
  intro now₁ now₂ d k hk
  refine ⟨?_, ?_, ?_⟩
  · rw [enrich_user_event_eq, enrich_user_event_eq]
    cases hs : userSegment d with
    | error u => simp [Except.map]
    | ok sgm => simp [Except.map, Ne.symm hk]
  · rw [enrich_sensor_data_eq, enrich_sensor_data_eq]
    cases hs : sensorDerived d with
    | error u => simp [Except.map]
    | ok w => simp [Except.map, Ne.symm hk]
  · rw [enrich_transaction_eq, enrich_transaction_eq]
    cases hs : transactionDerived d with
    | error u => simp [Except.map]
    | ok w => simp [Except.map, Ne.symm hk]

/-- Witness for C9: two enrichment runs at times "A" and "B" agree on
`data_source`. -/
theorem C9_deterministic_up_to_clock_witness :
    (enrich_user_event "A" exUserEvent).map (fun e => dLookup e "data_source")
        = (enrich_user_event "B" exUserEvent).map (fun e => dLookup e "data_source")
    ∧ (enrich_sensor_data "A" exUserEvent).map (fun e => dLookup e "data_source")
        = (enrich_sensor_data "B" exUserEvent).map (fun e => dLookup e "data_source")
    ∧ (enrich_transaction "A" exUserEvent).map (fun e => dLookup e "data_source")
        = (enrich_transaction "B" exUserEvent).map (fun e => dLookup e "data_source") :=
  C9_deterministic_up_to_clock "A" "B" exUserEvent "data_source" (by decide)

/-- C10: enrichment preserves validity — the validator of each kind returns
on the successfully enriched record exactly what it returns on the raw
record, because enrichment only writes fields no validator reads. -/
theorem C10_enrich_preserves_validity :
    ∀ (now : String) (d e : Dict),
      (enrich_user_event now d = .ok e →
        validate_user_event e = validate_user_event d)
      ∧ (enrich_sensor_data now d = .ok e →
        validate_sensor_data e = validate_sensor_data d)
      ∧ (enrich_transaction now d = .ok e →
        validate_transaction e = validate_transaction d) := by
  intro now d e
  refine ⟨?_, ?_, ?_⟩
  · intro he
    rw [enrich_user_event_eq] at he
    cases hs : userSegment d with
    | error u => simp [hs, Except.map] at he
    | ok sgm =>
      simp [hs, Except.map] at he
      subst he
      exact validate_user_event_congr _ _ (by simp) (by simp) (by simp)
  · intro he
    rw [enrich_sensor_data_eq] at he
    cases hs : sensorDerived d with
    | error u => simp [hs, Except.map] at he
    | ok w =>
      simp [hs, Except.map] at he
      subst he
      exact validate_sensor_data_congr _ _ (by simp) (by simp) (by simp) (by simp) (by simp)
  · intro he
    rw [enrich_transaction_eq] at he
    cases hs : transactionDerived d with
    | error u => simp [hs, Except.map] at he
    | ok w =>
      simp [hs, Except.map] at he
      subst he
      exact validate_transaction_congr _ _ (by simp) (by simp) (by simp) (by simp) (by simp)

set_option maxRecDepth 2000 in
/-- Witness for C10: concrete valid records of each kind validate the same
before and after enrichment. -/
theorem C10_enrich_preserves_validity_witness :
    validate_user_event exUserEnriched = validate_user_event exUserEvent
    ∧ validate_sensor_data exSensorEnriched = validate_sensor_data (sensorTH 30 50)
    ∧ validate_transaction exTransactionEnriched = validate_transaction (transactionAt 1500) :=
  ⟨(C10_enrich_preserves_validity "T" exUserEvent exUserEnriched).1 (by decide),
   (C10_enrich_preserves_validity "T" (sensorTH 30 50) exSensorEnriched).2.1
     (by with_unfolding_all decide),
   (C10_enrich_preserves_validity "T" (transactionAt 1500) exTransactionEnriched).2.2
     (by decide)⟩

/-- C8: on a non-empty batch, `aggregate_user_events` reports the total
record count, the per-event-type occurrence counts, the number of distinct
user ids as `active_users`, and the count divided by the number of distinct
users as `avg_events_per_user` (distinctness under Python equality). -/
theorem C8_aggregate_user_events_spec :
    ∀ (events : List Dict), events ≠ [] →
      aLookup (aggregate_user_events events) "total_events"
          = some (.anum events.length)
      ∧ aLookup (aggregate_user_events events) "active_users"
          = some (.anum ((pyDistinct (events.map userIdOf)).length : ℚ))
      ∧ aLookup (aggregate_user_events events) "avg_events_per_user"
          = some (.anum ((events.length : ℚ) / (pyDistinct (events.map userIdOf)).length))
      ∧ ∃ m, aLookup (aggregate_user_events events) "event_type_counts" = some (.amap m)
          ∧ ∀ t, vGetD m t 0 = (countType events t : ℚ) := by
  intro events hne
  have hni : events.isEmpty = false := by
    cases events
    · exact absurd rfl hne
    · rfl
  have hkeys : (uaLoop events [] []).2.map Prod.fst = pyDistinct (events.map userIdOf) := by
    rw [uaLoop_keys]
    rfl
  have hlen : (uaLoop events [] []).2.length = (pyDistinct (events.map userIdOf)).length := by
    rw [← hkeys, List.length_map]
  have hpos : 0 < (uaLoop events [] []).2.length := by
    rw [hlen]
    obtain ⟨e, rest, rfl⟩ : ∃ e rest, events = e :: rest := by
      cases events
      · exact absurd rfl hne
      · exact ⟨_, _, rfl⟩
    have hstep : pyDistinct ((e :: rest).map userIdOf)
        = pyInsertAll [userIdOf e] (rest.map userIdOf) := by
      show pyInsertAll [] _ = _
      unfold pyInsertAll
      simp
    rw [hstep]
    calc 0 < 1 := Nat.one_pos
      _ = [userIdOf e].length := rfl
      _ ≤ _ := pyInsertAll_length_ge _ _
  have hempty : (uaLoop events [] []).2.isEmpty = false := by
    cases h : (uaLoop events [] []).2
    · rw [h] at hpos
      exact absurd hpos (by simp)
    · rfl
  have hagg : aggregate_user_events events =
      [("total_events", .anum events.length),
       ("event_type_counts", .amap (uaLoop events [] []).1),
       ("active_users", .anum (uaLoop events [] []).2.length),
       ("avg_events_per_user", .anum (if ¬ (uaLoop events [] []).2.isEmpty
           then (events.length : ℚ) / (uaLoop events [] []).2.length else 0))] := by
    unfold aggregate_user_events
    rw [hni]
    simp
  rw [hagg]
  refine ⟨by simp [aLookup], ?_, ?_, ?_⟩
  · simp [aLookup, hlen]
  · simp [aLookup, hempty, hlen]
  · refine ⟨(uaLoop events [] []).1, by simp [aLookup], ?_⟩
    intro t
    rw [uaLoop_counts]
    simp [vGetD, vLookup]

/-- Witness for C8: the batch with users 1, 1, 2 and event types a, a, b has
2 active users, an average of 1.5 events per user, and counts a ↦ 2, b ↦ 1.
-/
theorem C8_aggregate_user_events_spec_witness :
    aLookup (aggregate_user_events exampleUserEvents) "active_users" = some (.anum 2)
    ∧ aLookup (aggregate_user_events exampleUserEvents) "avg_events_per_user"
        = some (.anum (3/2))
    ∧ ∃ m, aLookup (aggregate_user_events exampleUserEvents) "event_type_counts"
          = some (.amap m)
        ∧ vGetD m (.str "a") 0 = 2 ∧ vGetD m (.str "b") 0 = 1 := by
  obtain ⟨h1, h2, h3, m, hm, hc⟩ :=
    C8_aggregate_user_events_spec exampleUserEvents (by decide)
  refine ⟨?_, ?_, m, hm, ?_, ?_⟩
  · rw [h2]
    decide
  · rw [h3]
    have hd : (pyDistinct (exampleUserEvents.map userIdOf)).length = 2 := by decide
    have hl : exampleUserEvents.length = 3 := rfl
    rw [hd, hl]
    norm_num
  · rw [hc (.str "a")]
    decide
  · rw [hc (.str "b")]
    decide

end DataProcessor
